import Mathlib

/-!
The graceful-shutdown service: a verification development for `cmd/main.go`.

The program is one Go file: two HTTP handlers (`healthCheck`, `listUsers`), an
error helper (`handleError`), a middleware (`respContentTypeMiddleware`), the
shutdown race (`doGracefulShutDown`, `doCloseResources`) and `serveHttp`, which
wires the router and the signal watcher together.

The embedding is shallow.  The handlers are functions on an explicit
`ResponseWriter` state.  What the program takes from the outside world (the
outcome of `client.Do`, the content of the upstream body, the arrival times of
signals and requests) is an explicit argument.  The library calls the program
makes (`encoding/json`, `net/http`, `gorilla/mux`, `os/signal`, `context`) are
modelled by the definitions of the first sections, each with a note on the
library behaviour it stands for.
-/

namespace GracefulShutdown

/-! ## JSON documents -/

/-- A JSON document.  Strings hold the text after escape sequences have been
resolved.  A number written without fraction and exponent is `int`; any other
number keeps its literal text in `float`. -/
inductive JSON where
  | null
  | bool (b : Bool)
  | int (i : Int)
  | float (lit : String)
  | str (s : String)
  | arr (xs : List JSON)
  | obj (kvs : List (String × JSON))
  deriving Repr

/-- Lower-case hexadecimal digit, Go's `hex[n]` for `n < 16`. -/
def hexDigit (n : Nat) : Char :=
  if n < 10 then Char.ofNat (48 + n) else Char.ofNat (87 + n)

/-- One rune of `encoding/json`'s `appendString` with `escapeHTML = true`, the
setting of a fresh `json.Encoder`: quote and backslash get a backslash, the
five short control escapes are used (as of Go 1.22), every other byte below 0x20 and the three
HTML characters are written as `\u00XX`, and U+2028 and U+2029 are written as
their six-character escapes. -/
def escapeRune (c : Char) : List Char :=
  if c = '"' then ['\\', '"']
  else if c = '\\' then ['\\', '\\']
  else if c.toNat = 8 then ['\\', 'b']
  else if c.toNat = 12 then ['\\', 'f']
  else if c = '\n' then ['\\', 'n']
  else if c = '\r' then ['\\', 'r']
  else if c = '\t' then ['\\', 't']
  else if c.toNat < 32 ∨ c = '<' ∨ c = '>' ∨ c = '&' then
    ['\\', 'u', '0', '0', hexDigit (c.toNat / 16), hexDigit (c.toNat % 16)]
  else if c.toNat = 8232 then ['\\', 'u', '2', '0', '2', '8']
  else if c.toNat = 8233 then ['\\', 'u', '2', '0', '2', '9']
  else [c]

/-- A JSON string literal, as `appendString` writes it. -/
def quote (s : String) : String :=
  "\"" ++ String.mk (s.data.flatMap escapeRune) ++ "\""

/-- Decimal text of an integer, `strconv.FormatInt(i, 10)`. -/
def formatInt (i : Int) : String :=
  match i with
  | Int.ofNat n => Nat.repr n
  | Int.negSucc n => "-" ++ Nat.repr (n + 1)

mutual
/-- The compact text of a document, as `encoding/json` writes it. -/
def JSON.render : JSON → String
  | .null => "null"
  | .bool true => "true"
  | .bool false => "false"
  | .int i => formatInt i
  | .float lit => lit
  | .str s => quote s
  | .arr xs => "[" ++ JSON.renderElems xs ++ "]"
  | .obj kvs => "\x7b" ++ JSON.renderMembers kvs ++ "\x7d"
/-- The elements of an array, separated by commas. -/
def JSON.renderElems : List JSON → String
  | [] => ""
  | [x] => x.render
  | x :: y :: xs => x.render ++ "," ++ JSON.renderElems (y :: xs)
/-- The members of an object, separated by commas. -/
def JSON.renderMembers : List (String × JSON) → String
  | [] => ""
  | [(k, v)] => quote k ++ ":" ++ v.render
  | (k, v) :: m :: kvs => quote k ++ ":" ++ v.render ++ "," ++ JSON.renderMembers (m :: kvs)
end

/-- True for a document that is an array. -/
def JSON.isArray : JSON → Bool
  | .arr _ => true
  | _ => false

/-! ## The response writer of `net/http` -/

/-- An `http.Header`: the entries in insertion order, keys in canonical form. -/
abbrev Header := List (String × String)

/-- Bytes that `net/textproto` accepts in a header field name: letters, digits
and the punctuation of an HTTP token. -/
def isTokenByte (c : Char) : Bool :=
  c.isAlphanum ||
    [33, 35, 36, 37, 38, 39, 42, 43, 45, 46, 94, 95, 96, 124, 126].contains c.toNat

/-- The loop of `textproto.CanonicalMIMEHeaderKey`: the first letter and every
letter after a hyphen are upper-cased, every other letter is lower-cased. -/
def canonicalLoop : Bool → List Char → List Char
  | _, [] => []
  | upper, c :: cs =>
    (if upper ∧ c.isLower then c.toUpper
     else if ¬ upper ∧ c.isUpper then c.toLower
     else c) :: canonicalLoop (c = '-') cs

/-- Go's `textproto.CanonicalMIMEHeaderKey`: a key holding a byte that is not
a token byte is returned unchanged. -/
def canonicalMIMEHeaderKey (s : String) : String :=
  if s.data.all isTokenByte then String.mk (canonicalLoop true s.data) else s

/-- Go's `Header.Set`: replaces every value stored under the canonical key. -/
def Header.Set (h : Header) (key value : String) : Header :=
  h.filter (fun kv => kv.1 ≠ canonicalMIMEHeaderKey key) ++
    [(canonicalMIMEHeaderKey key, value)]

/-- Go's `Header.Get`: the first value stored under the canonical key, the
empty string when there is none. -/
def Header.Get (h : Header) (key : String) : String :=
  match h.find? (fun kv => kv.1 = canonicalMIMEHeaderKey key) with
  | some kv => kv.2
  | none => ""

/-- The state of an `http.ResponseWriter`.  `header` is the map returned by
`w.Header()`.  `sent` is empty until the response header is written; from then
on it holds the status code and the header map as they went out, and later
changes to `header` no longer reach the client.  `body` is every byte written
so far. -/
structure ResponseWriter where
  header : Header
  sent : Option (Nat × Header)
  body : String
  deriving Repr, DecidableEq

/-- A writer nothing has been done to. -/
def ResponseWriter.fresh : ResponseWriter :=
  { header := [], sent := none, body := "" }

/-- Go's `w.WriteHeader(code)`: the first call sends the status code with the
current header map, later calls change nothing. -/
def ResponseWriter.WriteHeader (w : ResponseWriter) (code : Nat) : ResponseWriter :=
  match w.sent with
  | some _ => w
  | none => { w with sent := some (code, w.header) }

/-- Go's `w.Write(p)`: a write before any `WriteHeader` sends status 200 first;
the bytes are appended to the body. -/
def ResponseWriter.Write (w : ResponseWriter) (p : String) : ResponseWriter :=
  { w.WriteHeader 200 with body := (w.WriteHeader 200).body ++ p }

/-- What the server does when the handler returns: a handler that wrote
nothing still gets status 200 with the header map it left. -/
def ResponseWriter.finish (w : ResponseWriter) : ResponseWriter :=
  w.WriteHeader 200

/-- The status code the client sees. -/
def ResponseWriter.status (w : ResponseWriter) : Nat :=
  match w.finish.sent with
  | some (code, _) => code
  | none => 200

/-- The content-type header value the client sees. -/
def ResponseWriter.contentType (w : ResponseWriter) : String :=
  match w.finish.sent with
  | some (_, h) => Header.Get h "Content-Type"
  | none => ""

/-- Go's `json.NewEncoder(w).Encode(v)` for a value whose JSON form is `v`: the
text of `v` followed by one newline, handed to `w.Write` in one call. -/
def Encode (w : ResponseWriter) (v : JSON) : ResponseWriter :=
  w.Write (v.render ++ "\n")

/-- The JSON form of a `map[string]string`: an object whose members are the
entries in key order. -/
def marshalStringMap (m : List (String × String)) : JSON :=
  .obj ((m.insertionSort (fun a b => a.1 ≤ b.1)).map (fun kv => (kv.1, JSON.str kv.2)))

/-- An incoming request, as far as the router looks at it. -/
structure Request where
  Method : String
  Path : String
  deriving Repr, DecidableEq

/-! ## `healthCheck` and `handleError` -/

/-- Source `healthCheck`: encodes the map `status: ok`; the request is not
looked at. -/
def healthCheck (w : ResponseWriter) (_r : Request) : ResponseWriter :=
  let resp := [("status", "ok")]
  Encode w (marshalStringMap resp)

/-- Source `handleError`: encodes the map `err: err.Error()`.  The argument is
the text `err.Error()` of the error value, the only thing the function takes
from it. -/
def handleError (w : ResponseWriter) (err : String) : ResponseWriter :=
  let resp := [("err", err)]
  Encode w (marshalStringMap resp)

/-! ## The upstream call of `listUsers` -/

/-- Source `listUsers`, constant `fetchUsersUrl`. -/
def fetchUsersUrl : String := "https://jsonplaceholder.typicode.com/users"

/-- Source `listUsers`, local type `user`.  `ID` is an `int64`: the decoder
stores only values in the 64-bit range, see `storeField`. -/
structure user where
  ID : Int
  Name : String
  Username : String
  Email : String
  deriving Repr, DecidableEq

/-- The zero value of `user`, what a fresh slice element holds. -/
def user.zero : user :=
  { ID := 0, Name := "", Username := "", Email := "" }

/-- The values an `int64` can hold. -/
def inInt64 (i : Int) : Prop :=
  -(2 ^ 63 : Int) ≤ i ∧ i < (2 : Int) ^ 63

instance (i : Int) : Decidable (inInt64 i) := by
  unfold inInt64; infer_instance

/-- The four fields of `user`, by their Go names. -/
inductive Field where
  | ID | Name | Username | Email
  deriving Repr, DecidableEq

/-- The JSON name of a field, from its struct tag. -/
def Field.jsonName : Field → String
  | .ID => "id"
  | .Name => "name"
  | .Username => "username"
  | .Email => "email"

/-- The Go type of a field, as `reflect.Type.String` prints it. -/
def Field.goType : Field → String
  | .ID => "int64"
  | _ => "string"

/-- Case folding of one rune of an object key, as `encoding/json` compares
keys with field names: the two runes whose simple fold is an ASCII letter
(U+017F, U+212A) are sent to that letter, every other rune to its ASCII lower
case. -/
def foldRune (c : Char) : Char :=
  if c.toNat = 383 then 's' else if c.toNat = 8490 then 'k' else c.toLower

/-- An object key, folded. -/
def foldName (s : String) : String :=
  String.mk (s.data.map foldRune)

/-- The field an object key is stored into: the one whose JSON name equals the
key up to case folding; none for a key that matches no field, which the
decoder skips. -/
def findField (key : String) : Option Field :=
  if foldName key = "id" then some .ID
  else if foldName key = "name" then some .Name
  else if foldName key = "username" then some .Username
  else if foldName key = "email" then some .Email
  else none

/-- A `json.UnmarshalTypeError`: `Value` describes the JSON value, `GoType` is
the Go type it could not be stored into, `Struct` and `Field` name the struct
field when there is one. -/
structure UnmarshalTypeError where
  Value : String
  GoType : String
  Struct : String
  Field : String
  deriving Repr, DecidableEq

/-- Go's `(*UnmarshalTypeError).Error`. -/
def UnmarshalTypeError.Error (e : UnmarshalTypeError) : String :=
  if e.Struct ≠ "" ∨ e.Field ≠ "" then
    "json: cannot unmarshal " ++ e.Value ++ " into Go struct field " ++ e.Struct ++ "." ++
      e.Field ++ " of type " ++ e.GoType
  else
    "json: cannot unmarshal " ++ e.Value ++ " into Go value of type " ++ e.GoType

/-- The word the decoder uses for a JSON value in a type error. -/
def JSON.kind : JSON → String
  | .null => "null"
  | .bool _ => "bool"
  | .int _ => "number"
  | .float _ => "number"
  | .str _ => "string"
  | .arr _ => "array"
  | .obj _ => "object"

/-- The type error for value `v` met at field `f` of `user`. -/
def fieldError (f : Field) (value : String) : UnmarshalTypeError :=
  { Value := value, GoType := f.goType, Struct := "user", Field := f.jsonName }

/-- The decoder storing the JSON value `v` into field `f` of `u`.  `null`
leaves the field as it is.  `ID` takes a number written as an integer that
fits 64 bits; `Name`, `Username` and `Email` take a string.  Anything else is
a type error. -/
def storeField (u : user) (f : Field) (v : JSON) : Except UnmarshalTypeError user :=
  match f, v with
  | _, .null => .ok u
  | .ID, .int i =>
    if inInt64 i then .ok { u with ID := i }
    else .error (fieldError .ID ("number " ++ formatInt i))
  | .ID, .float lit => .error (fieldError .ID ("number " ++ lit))
  | .Name, .str s => .ok { u with Name := s }
  | .Username, .str s => .ok { u with Username := s }
  | .Email, .str s => .ok { u with Email := s }
  | f, v => .error (fieldError f v.kind)

/-- The decoder filling a `user` from the members of an object, in document
order: a member whose key matches no field is skipped, a later member for the
same field overwrites an earlier one, and the first type error is the one
reported. -/
def decodeMembers (u : user) : List (String × JSON) → Except UnmarshalTypeError user
  | [] => .ok u
  | (k, v) :: kvs =>
    match findField k with
    | none => decodeMembers u kvs
    | some f =>
      match storeField u f v with
      | .error e => .error e
      | .ok u' => decodeMembers u' kvs

/-- The decoder storing one array element into a fresh `user`: an object is
decoded member by member, `null` leaves the zero value, any other value is a
type error. -/
def decodeElem : JSON → Except UnmarshalTypeError user
  | .obj kvs => decodeMembers user.zero kvs
  | .null => .ok user.zero
  | v => .error { Value := v.kind, GoType := "main.user", Struct := "", Field := "" }

/-- The decoder storing the elements of an array, in order. -/
def decodeElems : List JSON → Except UnmarshalTypeError (List user)
  | [] => .ok []
  | x :: xs =>
    match decodeElem x with
    | .error e => .error e
    | .ok u =>
      match decodeElems xs with
      | .error e => .error e
      | .ok us => .ok (u :: us)

/-- Go's `json.Unmarshal` into `fetchedUsers`, a nil `[]user`.  The result
`none` is the nil slice, `some us` a slice that is not nil.  An array gives a
slice that is not nil, also when it is empty; `null` leaves the slice nil;
any other value is a type error. -/
def unmarshalUsers : JSON → Except UnmarshalTypeError (Option (List user))
  | .arr xs =>
    match decodeElems xs with
    | .error e => .error e
    | .ok us => .ok (some us)
  | .null => .ok none
  | v => .error { Value := v.kind, GoType := "[]main.user", Struct := "", Field := "" }

/-- Text of an error value that the network stack built: never empty. -/
abbrev ErrorText := { s : String // s ≠ "" }

/-- Why `json.Decoder` finds no complete JSON value in the body: the body is
empty (`io.EOF`), it ends inside a value (`io.ErrUnexpectedEOF`), it holds a
byte that cannot continue a value or is nested too deep (`*json.SyntaxError`),
or reading the body failed with an error of the transport. -/
inductive ReadFailure where
  | eof
  | unexpectedEOF
  | syntaxError (found : String)
  | maxDepth
  | transport (text : ErrorText)
  deriving Repr, DecidableEq

/-- The message of a read failure. -/
def ReadFailure.Error : ReadFailure → String
  | .eof => "EOF"
  | .unexpectedEOF => "unexpected EOF"
  | .syntaxError found => "invalid character " ++ found
  | .maxDepth => "exceeded max depth"
  | .transport text => text.val

/-- What `json.Decoder` reads from the body of the upstream response: either
the first complete JSON value of the stream, or a read failure. -/
inductive Body where
  | document (v : JSON)
  | broken (e : ReadFailure)
  deriving Repr

/-- An `*http.Response`, as far as the program could look at it. -/
structure Response where
  StatusCode : Nat
  Body : Body
  deriving Repr

/-- A `*url.Error`, the only kind of error `client.Do` returns. -/
structure urlError where
  Op : String
  URL : String
  Err : String
  deriving Repr, DecidableEq

/-- Go's `(*url.Error).Error`: operation, quoted URL, colon, cause. -/
def urlError.Error (e : urlError) : String :=
  e.Op ++ " \"" ++ e.URL ++ "\": " ++ e.Err

/-- An error returned by `dec.Decode`. -/
inductive DecodeError where
  | read (e : ReadFailure)
  | type (e : UnmarshalTypeError)
  deriving Repr, DecidableEq

/-- The message of a decode error. -/
def DecodeError.Error : DecodeError → String
  | .read e => e.Error
  | .type e => e.Error

/-- Go's `json.NewDecoder(resp.Body).Decode(&fetchedUsers)`: the first JSON
value of the body is read whole, then stored into the nil slice. -/
def Decode (b : Body) : Except DecodeError (Option (List user)) :=
  match b with
  | .broken e => .error (.read e)
  | .document v =>
    match unmarshalUsers v with
    | .error e => .error (.type e)
    | .ok fetchedUsers => .ok fetchedUsers

/-- The JSON form of a `user`: the four fields in declaration order, under the
names of their struct tags. -/
def marshalUser (u : user) : JSON :=
  .obj [("id", .int u.ID), ("name", .str u.Name), ("username", .str u.Username),
    ("email", .str u.Email)]

/-- The JSON form of a `[]user`: `null` for the nil slice, an array otherwise. -/
def marshalUsers : Option (List user) → JSON
  | none => .null
  | some us => .arr (us.map marshalUser)

/-- Source `listUsers`.  `upstream` is what `client.Do(request)` returns.  The
request is not looked at, and neither is `resp.StatusCode`.  Closing the body
has no effect on the response. -/
def listUsers (upstream : Except urlError Response) (w : ResponseWriter) (_r : Request) :
    ResponseWriter :=
  match upstream with
  | .error err => handleError w err.Error
  | .ok resp =>
    match Decode resp.Body with
    | .error err => handleError w err.Error
    | .ok fetchedUsers => Encode w (marshalUsers fetchedUsers)

/-- The failure of the upstream call, if there is one: the error of
`client.Do`, or else the error of `dec.Decode`; its message. -/
def upstreamError (upstream : Except urlError Response) : Option String :=
  match upstream with
  | .error err => some err.Error
  | .ok resp =>
    match Decode resp.Body with
    | .error err => some err.Error
    | .ok _ => none

/-! ## The middleware and the router -/

/-- An `http.Handler`. -/
abbrev Handler := ResponseWriter → Request → ResponseWriter

/-- Source `respContentTypeMiddleware`: sets the header, then runs `next`. -/
def respContentTypeMiddleware (next : Handler) : Handler :=
  fun w r => next { w with header := w.header.Set "Content-type" "application/json" } r

/-- A route of the router: `HandleFunc(template, handler).Methods(method)`. -/
structure Route where
  template : String
  method : String
  handler : Handler

/-- True for a path that ends in a slash. -/
def hasSlashSuffix (p : String) : Bool :=
  p.data.getLast? = some '/'

/-- The path without its last byte. -/
def dropLastByte (p : String) : String :=
  String.mk p.data.dropLast

/-- The path matcher of a route built with `StrictSlash(true)` from a template
without variables: the template without its final slash, followed by an
optional slash. -/
def Route.pathMatches (rt : Route) (path : String) : Bool :=
  let base := if hasSlashSuffix rt.template then dropLastByte rt.template else rt.template
  path = base || path = base ++ "/"

/-- The segments that `path.Clean` keeps of a rooted path, the kept ones in
reverse order in the first argument: empty segments and `.` are dropped, `..`
removes the segment before it and is dropped at the root. -/
def cleanSegments : List (List Char) → List (List Char) → List (List Char)
  | acc, [] => acc.reverse
  | acc, seg :: rest =>
    if seg = [] ∨ seg = ['.'] then cleanSegments acc rest
    else if seg = ['.', '.'] then cleanSegments acc.tail rest
    else cleanSegments (seg :: acc) rest

/-- The router's `cleanPath`: the path is made rooted, cleaned with
`path.Clean`, and gets back the final slash that cleaning removed. -/
def cleanPath (p : String) : String :=
  if p = "" then "/"
  else
    let rooted := if p.data.head? = some '/' then p.data else '/' :: p.data
    let np := '/' :: List.intercalate ['/'] (cleanSegments [] (rooted.splitOn '/'))
    if rooted.getLast? = some '/' ∧ np ≠ ['/'] then String.mk (np ++ ['/']) else String.mk np

/-- Go's `http.RedirectHandler(url, 301)` for a writer that carries a
content-type header already: only the location is set, no body is written.
Without a content-type header, a GET or HEAD gets an HTML content type and a
GET gets a short HTML body, in which the URL is written here as it is. -/
def RedirectHandler (url : String) : Handler :=
  fun w r =>
    let hadCT := w.header.any (fun kv => kv.1 = "Content-Type")
    let h := w.header.Set "Location" url
    let h := if ¬ hadCT ∧ (r.Method = "GET" ∨ r.Method = "HEAD") then
      h.Set "Content-Type" "text/html; charset=utf-8" else h
    let w := ({ w with header := h }).WriteHeader 301
    if ¬ hadCT ∧ r.Method = "GET" then
      w.Write ("<a href=\"" ++ url ++ "\">Moved Permanently</a>.\n\n")
    else w

/-- Go's `http.NotFound`: plain-text content type, status 404, one line. -/
def NotFound : Handler :=
  fun w _ =>
    let h := (w.header.Set "Content-Type" "text/plain; charset=utf-8").Set
      "X-Content-Type-Options" "nosniff"
    (({ w with header := h }).WriteHeader 404).Write "404 page not found\n"

/-- The outcome of the router's `Match`. -/
inductive RouteMatch where
  | found (rt : Route) (h : Handler)
  | methodMismatch
  | notFound

/-- The handler of a matched route before the middleware is put around it:
the route's own handler, or the strict-slash redirect when path and template
differ in their final slash. -/
def Route.matchHandler (rt : Route) (r : Request) : Handler :=
  if hasSlashSuffix r.Path ≠ hasSlashSuffix rt.template then
    RedirectHandler (if hasSlashSuffix r.Path then dropLastByte r.Path else r.Path ++ "/")
  else rt.handler

/-- The router's `Match` over its routes in registration order.  The first
route whose path and method both match is found, and the middleware is put
around its handler.  `mismatch` records that an earlier route matched the path
with another method; with no route found that gives `methodMismatch`. -/
def Router.Match (middleware : Handler → Handler) (r : Request) :
    Bool → List Route → RouteMatch
  | mismatch, [] => if mismatch then .methodMismatch else .notFound
  | mismatch, rt :: rest =>
    if rt.pathMatches r.Path then
      if rt.method = r.Method then .found rt (middleware (rt.matchHandler r))
      else Router.Match middleware r true rest
    else Router.Match middleware r mismatch rest

/-- The router's `ServeHTTP`.  A path that is not clean is answered with a
redirect to the clean path before any matching.  A found route runs its
handler inside the middleware.  Without a found route the router answers by
itself, with status 405 or with `http.NotFound`; the middleware does not run. -/
def Router.ServeHTTP (middleware : Handler → Handler) (routes : List Route) : Handler :=
  fun w r =>
    if cleanPath r.Path ≠ r.Path then
      ({ w with header := w.header.Set "Location" (cleanPath r.Path) }).WriteHeader 301
    else
      match Router.Match middleware r false routes with
      | .found _ h => h w r
      | .methodMismatch => w.WriteHeader 405
      | .notFound => NotFound w r

/-- Source `serveHttp`, the two `HandleFunc` lines: both routes take GET only.
`upstream` is what `client.Do` returns when `listUsers` runs. -/
def routes (upstream : Except urlError Response) : List Route :=
  [{ template := "/", method := "GET", handler := healthCheck },
   { template := "/users", method := "GET", handler := listUsers upstream }]

/-- Source `serveHttp`, the router handed to `http.ListenAndServe`: the two
routes with `respContentTypeMiddleware` in use.  The result is the response as
the client receives it. -/
def router (upstream : Except urlError Response) (r : Request) : ResponseWriter :=
  (Router.ServeHTTP respContentTypeMiddleware (routes upstream) ResponseWriter.fresh r).finish

/-- True when the router finds a route for the request and runs the matched
handler (the route's own handler, or its strict-slash redirect) inside the
middleware. -/
def dispatched (upstream : Except urlError Response) (r : Request) : Bool :=
  cleanPath r.Path = r.Path &&
    match Router.Match respContentTypeMiddleware r false (routes upstream) with
    | .found _ _ => true
    | _ => false

/-! ## The shutdown race -/

/-- A `time.Duration`, and a point in time: nanoseconds. -/
abbrev Duration := Nat

/-- Go's `time.Second`. -/
def Second : Duration := 1000000000

/-- Source `doGracefulShutDown`, the bound of `context.WithTimeout`. -/
def shutdownTimeout : Duration := Second * 5

/-- Source `doCloseResources`, the argument of `time.Sleep`. -/
def closeDelay : Duration := Second * 3

/-- What one run of the cleanup goroutine does, in time counted from its
start: the lines it logs, and the moment from which it offers its value on
`done`, if that moment comes. -/
structure CleanupRun where
  log : List (Duration × String)
  sendAt : Option Duration
  deriving Repr, DecidableEq

/-- Source `doCloseResources`, with the length of the sleep as a parameter:
`some d` sleeps `d`, `none` is a cleanup that never comes back from its work.
The program itself runs it with `some closeDelay`. -/
def doCloseResources (sleep : Option Duration) : CleanupRun :=
  match sleep with
  | some d =>
    { log := [(0, "closing resources ...."), (d, "done closing resources ....")],
      sendAt := some d }
  | none => { log := [(0, "closing resources ....")], sendAt := none }

/-- The two cases of the `select` in `doGracefulShutDown`. -/
inductive SelectCase where
  | ctxDone
  | done
  deriving Repr, DecidableEq

/-- The `select` of `doGracefulShutDown`, entered at time 0.  `ctx.Done()` is
ready from the deadline on, `done` from the moment the cleanup offers its
value.  The `select` blocks until a case is ready and takes it; when both
become ready at the same moment the runtime takes either one, which `pick`
stands for.  The result is the case taken and the time it is taken at. -/
def selectFirst (deadline : Duration) (sendAt : Option Duration) (pick : SelectCase) :
    SelectCase × Duration :=
  match sendAt with
  | none => (.ctxDone, deadline)
  | some d =>
    if d < deadline then (.done, d)
    else if deadline < d then (.ctxDone, deadline)
    else (pick, deadline)

/-- What one call of `doGracefulShutDown` does: the lines it logs itself, and
the time it returns at, counted from its start. -/
structure ShutdownRun where
  log : List String
  returnedAt : Duration
  deriving Repr, DecidableEq

/-- Source `doGracefulShutDown`, with the bound and the cleanup's sleep as
parameters; the program runs it with `shutdownTimeout` and `some closeDelay`.
Both cases of the `select` return, so the surrounding `for` runs its body
once. -/
def doGracefulShutDown (timeout : Duration) (sleep : Option Duration) (pick : SelectCase) :
    ShutdownRun :=
  let cleanup := doCloseResources sleep
  match selectFirst timeout cleanup.sendAt pick with
  | (.ctxDone, t) => { log := ["closing resources has timed out"], returnedAt := t }
  | (.done, t) => { log := ["closing resources has finished on time"], returnedAt := t }

/-! ## The lifecycle of the process -/

/-- How a process ends: exit code and time. -/
structure Exit where
  code : Nat
  time : Duration
  deriving Repr, DecidableEq

/-- Source `serveHttp`, the goroutine that watches `sigCh`, from the moment
`now` at which it has received a signal: it logs the signal, runs
`doGracefulShutDown` and calls `os.Exit(0)`. -/
def watcher (now : Duration) (sleep : Option Duration) (pick : SelectCase) : Exit :=
  let run := doGracefulShutDown shutdownTimeout sleep pick
  { code := 0, time := now + run.returnedAt }

/-- The lifecycle states.  `RUNNING`: the listener serves and the watcher
goroutine is blocked in its receive from `sigCh`.  `SHUTTING_DOWN`: the
watcher has received a signal and is inside `doGracefulShutDown`; `exit` is
where it will end.  `TERMINATED`: the process has exited with `code`. -/
inductive Lifecycle where
  | RUNNING
  | SHUTTING_DOWN (exit : Exit)
  | TERMINATED (code : Nat)
  deriving Repr, DecidableEq

/-- What reaches the process from outside. -/
inductive Event where
  | signal
  | request (r : Request) (upstream : Except urlError Response)

/-- The process: its lifecycle state, how often `doGracefulShutDown` has been
started, and the requests the router has handed to a handler, with their
arrival times. -/
structure Process where
  state : Lifecycle
  shutdowns : Nat
  handled : List (Duration × Request)
  deriving Repr, DecidableEq

/-- The process when it enters `RUNNING`: the listener is bound and the watcher
is blocked in its receive.  What happens to a signal before that moment, while
the watcher goroutine has not reached its receive yet, lies before the
lifecycle and is not part of it. -/
def Process.init : Process :=
  { state := .RUNNING, shutdowns := 0, handled := [] }

/-- Time passing up to `now`: a process that is shutting down and has reached
the time of its `os.Exit` is gone. -/
def Process.advance (p : Process) (now : Duration) : Process :=
  match p.state with
  | .SHUTTING_DOWN exit =>
    if exit.time ≤ now then { p with state := .TERMINATED exit.code } else p
  | _ => p

/-- Source `serveHttp` at one event arriving at time `now`.

A signal is handed to `sigCh` by `os/signal` with a send that does not block.
`sigCh` has no buffer, so the send succeeds only while the watcher is blocked
in its receive, which is the `RUNNING` state; the watcher receives once and
never again, so in any other state the signal is dropped.

A request is served by `http.ListenAndServe`, which nothing in the program
stops: it is routed in every state in which the process still exists. -/
def Process.step (sleep : Option Duration) (pick : SelectCase) (p : Process)
    (now : Duration) (e : Event) : Process :=
  let p := p.advance now
  match e with
  | .signal =>
    match p.state with
    | .RUNNING =>
      { p with state := .SHUTTING_DOWN (watcher now sleep pick), shutdowns := p.shutdowns + 1 }
    | _ => p
  | .request r upstream =>
    match p.state with
    | .TERMINATED _ => p
    | _ => if dispatched upstream r then { p with handled := p.handled ++ [(now, r)] } else p

/-- The process after a sequence of timed events. -/
def Process.run (sleep : Option Duration) (pick : SelectCase) :
    Process → List (Duration × Event) → Process
  | p, [] => p
  | p, (now, e) :: rest => Process.run sleep pick (Process.step sleep pick p now e) rest

/-- True for a signal event. -/
def Event.isSignal : Event → Bool
  | .signal => true
  | _ => false

/-- The transitions of the lifecycle state machine: a state may stay, and the
only moves are `RUNNING` to `SHUTTING_DOWN` and `SHUTTING_DOWN` to
`TERMINATED`. -/
def Lifecycle.allowed : Lifecycle → Lifecycle → Prop
  | .RUNNING, .RUNNING => True
  | .RUNNING, .SHUTTING_DOWN _ => True
  | .SHUTTING_DOWN a, .SHUTTING_DOWN b => a = b
  | .SHUTTING_DOWN a, .TERMINATED c => c = a.code
  | .TERMINATED a, .TERMINATED b => a = b
  | _, _ => False

/-! ## Definitions used to state the theorems -/

/-- The writer a handler receives from the middleware on a fresh response. -/
def jsonWriter : ResponseWriter :=
  { header := [("Content-Type", "application/json")], sent := none, body := "" }

/-- The value of field `f` in the JSON form of `u`. -/
def fieldValue (u : user) : Field → JSON
  | .ID => .int u.ID
  | .Name => .str u.Name
  | .Username => .str u.Username
  | .Email => .str u.Email

/-- The object with members `kvs` is a record of the user `u`: every member
whose key the decoder takes for the field `id` is the integer `u.ID`, every
member whose key it takes for `name`, `username` or `email` is the string `u`
has there, and each of the four fields is named by some member.  Members under
other keys are free.  Nothing is asked of the size of the id. -/
def IsUserRecord (kvs : List (String × JSON)) (u : user) : Prop :=
  (∀ kv ∈ kvs, findField kv.1 = some Field.ID → kv.2 = JSON.int u.ID) ∧
  (∀ kv ∈ kvs, findField kv.1 = some Field.Name → kv.2 = JSON.str u.Name) ∧
  (∀ kv ∈ kvs, findField kv.1 = some Field.Username → kv.2 = JSON.str u.Username) ∧
  (∀ kv ∈ kvs, findField kv.1 = some Field.Email → kv.2 = JSON.str u.Email) ∧
  (∀ f, ∃ kv ∈ kvs, findField kv.1 = some f)

/-- The user that takes from `u` the fields marked in `present` and the other
fields from `acc`. -/
def pickFields (present : Field → Bool) (acc u : user) : user :=
  { ID := if present .ID then u.ID else acc.ID,
    Name := if present .Name then u.Name else acc.Name,
    Username := if present .Username then u.Username else acc.Username,
    Email := if present .Email then u.Email else acc.Email }

/-! ## The shutdown race: theorems -/

theorem selectFirst_time_le (deadline : Duration) (sendAt : Option Duration) (pick : SelectCase) :
    (selectFirst deadline sendAt pick).2 ≤ deadline := by
  unfold selectFirst
  cases sendAt with
  | none => simp
  | some d =>
    simp only
    split_ifs with h1 h2
    · exact Nat.le_of_lt h1
    · exact Nat.le_refl _
    · exact Nat.le_refl _

theorem doGracefulShutDown_returnedAt (timeout : Duration) (sleep : Option Duration)
    (pick : SelectCase) :
    (doGracefulShutDown timeout sleep pick).returnedAt =
      (selectFirst timeout (doCloseResources sleep).sendAt pick).2 := by
  unfold doGracefulShutDown
  simp only
  split <;> simp_all

/-- C1. Whatever the cleanup does (`sleep`, with `none` for a cleanup that never
signals completion) and whichever way a tie is broken, `doGracefulShutDown`
with the program's bound returns at most 5 seconds after its start.  The
watcher that received a signal at time `now` therefore ends the process with
exit code 0 no later than `now + 5s`: the signal moves the process from
`RUNNING` to `SHUTTING_DOWN`, and from `now + 5s` on it is `TERMINATED 0`. -/
theorem C1_shutdown_bounded (sleep : Option Duration) (pick : SelectCase) (now extra : Duration) :
    (doGracefulShutDown shutdownTimeout sleep pick).returnedAt ≤ 5 * Second ∧
    (Process.step sleep pick Process.init now Event.signal).state =
      Lifecycle.SHUTTING_DOWN (watcher now sleep pick) ∧
    (watcher now sleep pick).code = 0 ∧
    (watcher now sleep pick).time ≤ now + 5 * Second ∧
    ((Process.step sleep pick Process.init now Event.signal).advance
      (now + 5 * Second + extra)).state = Lifecycle.TERMINATED 0 := by
  have hb : (doGracefulShutDown shutdownTimeout sleep pick).returnedAt ≤ 5 * Second := by
    rw [doGracefulShutDown_returnedAt]
    have := selectFirst_time_le shutdownTimeout (doCloseResources sleep).sendAt pick
    simpa [shutdownTimeout, Nat.mul_comm] using this
  have ht : (watcher now sleep pick).time ≤ now + 5 * Second := by
    simp only [watcher]
    exact Nat.add_le_add_left hb now
  refine ⟨hb, ?_, rfl, ht, ?_⟩
  · simp [Process.step, Process.init, Process.advance]
  · have hle : (watcher now sleep pick).time ≤ now + 5 * Second + extra :=
      Nat.le_trans ht (Nat.le_add_right _ _)
    simp [Process.step, Process.init, Process.advance, hle]
    rfl

/-- C2. The race of `doGracefulShutDown` between a cleanup of duration `D` and
a bound `B`: if `D < B` it logs exactly the on-time line and returns at `D`, if
`B < D` it logs exactly the timed-out line and returns at `B`; in every case
it logs exactly one of the two lines; with the program's constants (3s, 5s)
the outcome is the on-time one. -/
theorem C2_race (D B : Duration) (pick : SelectCase) :
    (D < B → doGracefulShutDown B (some D) pick =
      { log := ["closing resources has finished on time"], returnedAt := D }) ∧
    (B < D → doGracefulShutDown B (some D) pick =
      { log := ["closing resources has timed out"], returnedAt := B }) ∧
    ((doGracefulShutDown B (some D) pick).log = ["closing resources has finished on time"] ∨
      (doGracefulShutDown B (some D) pick).log = ["closing resources has timed out"]) ∧
    doGracefulShutDown shutdownTimeout (some closeDelay) pick =
      { log := ["closing resources has finished on time"], returnedAt := 3 * Second } := by
  refine ⟨?_, ?_, ?_, ?_⟩
  · intro h
    simp [doGracefulShutDown, doCloseResources, selectFirst, h]
  · intro h
    simp [doGracefulShutDown, doCloseResources, selectFirst, h, Nat.lt_asymm h]
  · simp only [doGracefulShutDown, doCloseResources, selectFirst]
    split_ifs <;> first | simp | (cases pick <;> simp)
  · cases pick <;> decide

/-- C2 at concrete durations: cleanup 3 against bound 5, and against bound 2. -/
theorem C2_race_witness :
    ((3 : Nat) < 5 ∧ (2 : Nat) < 3) ∧
    doGracefulShutDown 5 (some 3) SelectCase.ctxDone =
      { log := ["closing resources has finished on time"], returnedAt := 3 } ∧
    doGracefulShutDown 2 (some 3) SelectCase.done =
      { log := ["closing resources has timed out"], returnedAt := 2 } :=
  ⟨by decide, (C2_race 3 5 SelectCase.ctxDone).1 (by decide),
    (C2_race 3 2 SelectCase.done).2.1 (by decide)⟩


/-! ## The handlers: theorems -/

theorem Encode_body (w : ResponseWriter) (v : JSON) :
    (Encode w v).body = w.body ++ (v.render ++ "\n") := by
  unfold Encode ResponseWriter.Write ResponseWriter.WriteHeader
  cases w.sent <;> rfl

theorem Encode_header (w : ResponseWriter) (v : JSON) :
    (Encode w v).header = w.header := by
  unfold Encode ResponseWriter.Write ResponseWriter.WriteHeader
  cases w.sent <;> rfl

theorem Encode_sent (w : ResponseWriter) (v : JSON) :
    (Encode w v).sent = (w.WriteHeader 200).sent := by
  unfold Encode ResponseWriter.Write
  rfl

theorem marshalStringMap_single (k v : String) :
    marshalStringMap [(k, v)] = JSON.obj [(k, JSON.str v)] := by
  simp [marshalStringMap]

theorem healthCheck_eq (w : ResponseWriter) (r : Request) :
    healthCheck w r = Encode w (JSON.obj [("status", JSON.str "ok")]) := by
  simp [healthCheck, marshalStringMap_single]

theorem handleError_eq (w : ResponseWriter) (err : String) :
    handleError w err = Encode w (JSON.obj [("err", JSON.str err)]) := by
  simp [handleError, marshalStringMap_single]

/-- C4 as stated fails: on a fresh writer the body `healthCheck` leaves is the
object followed by a newline, 16 bytes, and not the 15 bytes of the object. -/
theorem C4_counterexample :
    (healthCheck ResponseWriter.fresh { Method := "GET", Path := "/" }).body =
      "\x7b\"status\":\"ok\"\x7d\n" ∧
    (healthCheck ResponseWriter.fresh { Method := "GET", Path := "/" }).body ≠
      "\x7b\"status\":\"ok\"\x7d" := by
  decide

/-- C4, amended.  For every request and every writer, whatever was written to
it before, `healthCheck` appends exactly the object `status: ok` followed by
one newline, and nothing else. -/
theorem C4_healthCheck_body (w : ResponseWriter) (r : Request) :
    (healthCheck w r).body = w.body ++ "\x7b\"status\":\"ok\"\x7d\n" := by
  rw [healthCheck_eq, Encode_body]
  rfl


/-! ## The lifecycle: theorems -/

theorem advance_shutdowns (p : Process) (now : Duration) :
    (p.advance now).shutdowns = p.shutdowns := by
  unfold Process.advance
  split
  · split_ifs <;> rfl
  · rfl

theorem advance_handled (p : Process) (now : Duration) :
    (p.advance now).handled = p.handled := by
  unfold Process.advance
  split
  · split_ifs <;> rfl
  · rfl

theorem advance_running (p : Process) (now : Duration) (h : p.state = Lifecycle.RUNNING) :
    p.advance now = p := by
  unfold Process.advance
  rw [h]

theorem advance_not_running (p : Process) (now : Duration) (h : p.state ≠ Lifecycle.RUNNING) :
    (p.advance now).state ≠ Lifecycle.RUNNING := by
  unfold Process.advance
  split
  · split_ifs
    · simp
    · simp_all
  · exact h

theorem advance_allowed (p : Process) (now : Duration) :
    Lifecycle.allowed p.state (p.advance now).state := by
  unfold Process.advance
  cases hs : p.state with
  | RUNNING => simp [Lifecycle.allowed, hs]
  | SHUTTING_DOWN ex =>
    simp only
    split_ifs
    · simp [Lifecycle.allowed]
    · simp [Lifecycle.allowed, hs]
  | TERMINATED c => simp [Lifecycle.allowed, hs]

theorem step_signal_not_running (sleep : Option Duration) (pick : SelectCase) (p : Process)
    (now : Duration) (h : p.state ≠ Lifecycle.RUNNING) :
    Process.step sleep pick p now Event.signal = p.advance now := by
  have h2 := advance_not_running p now h
  unfold Process.step
  cases hs : (p.advance now).state with
  | RUNNING => exact absurd hs h2
  | SHUTTING_DOWN ex => simp only [hs]
  | TERMINATED c => simp only [hs]

theorem step_request_state (sleep : Option Duration) (pick : SelectCase) (p : Process)
    (now : Duration) (r : Request) (up : Except urlError Response) :
    (Process.step sleep pick p now (Event.request r up)).state = (p.advance now).state := by
  simp only [Process.step]
  split
  · rfl
  · split_ifs <;> rfl

theorem step_allowed (sleep : Option Duration) (pick : SelectCase) (p : Process)
    (now : Duration) (e : Event) :
    Lifecycle.allowed p.state (Process.step sleep pick p now e).state := by
  cases e with
  | request r up =>
    rw [step_request_state]
    exact advance_allowed p now
  | signal =>
    by_cases h : p.state = Lifecycle.RUNNING
    · simp [Process.step, advance_running p now h, h, Lifecycle.allowed]
    · rw [step_signal_not_running sleep pick p now h]
      exact advance_allowed p now

theorem step_not_running (sleep : Option Duration) (pick : SelectCase) (p : Process)
    (now : Duration) (e : Event) (h : p.state ≠ Lifecycle.RUNNING) :
    (Process.step sleep pick p now e).state ≠ Lifecycle.RUNNING := by
  cases e with
  | request r up =>
    rw [step_request_state]
    exact advance_not_running p now h
  | signal =>
    rw [step_signal_not_running sleep pick p now h]
    exact advance_not_running p now h

theorem step_shutdowns (sleep : Option Duration) (pick : SelectCase) (p : Process)
    (now : Duration) (e : Event) :
    (Process.step sleep pick p now e).shutdowns =
      p.shutdowns + (if p.state = Lifecycle.RUNNING ∧ e.isSignal = true then 1 else 0) := by
  cases e with
  | request r up =>
    have hreq : (Process.step sleep pick p now (Event.request r up)).shutdowns =
        (p.advance now).shutdowns := by
      simp only [Process.step]
      split
      · rfl
      · split_ifs <;> rfl
    rw [hreq, advance_shutdowns]
    simp [Event.isSignal]
  | signal =>
    by_cases h : p.state = Lifecycle.RUNNING
    · simp [Process.step, advance_running p now h, h, Event.isSignal]
    · rw [step_signal_not_running sleep pick p now h]
      simp [advance_shutdowns, h]

theorem step_running_iff (sleep : Option Duration) (pick : SelectCase) (p : Process)
    (now : Duration) (e : Event) :
    (Process.step sleep pick p now e).state = Lifecycle.RUNNING ↔
      (p.state = Lifecycle.RUNNING ∧ e.isSignal = false) := by
  constructor
  · intro hs
    by_cases h : p.state = Lifecycle.RUNNING
    · refine ⟨h, ?_⟩
      cases e with
      | request r up => rfl
      | signal => simp [Process.step, advance_running p now h, h] at hs
    · exact absurd hs (step_not_running sleep pick p now e h)
  · rintro ⟨h, he⟩
    cases e with
    | request r up => rw [step_request_state, advance_running p now h, h]
    | signal => simp [Event.isSignal] at he

/-- The number of shutdowns started over a trace: one more than before exactly
when the process is `RUNNING` and the trace holds a signal. -/
theorem run_shutdowns (sleep : Option Duration) (pick : SelectCase)
    (trace : List (Duration × Event)) (p : Process) :
    (Process.run sleep pick p trace).shutdowns =
      p.shutdowns +
        (if p.state = Lifecycle.RUNNING ∧ trace.any (fun te => te.2.isSignal) = true
          then 1 else 0) := by
  induction trace generalizing p with
  | nil => simp [Process.run]
  | cons te rest ih =>
    obtain ⟨now, e⟩ := te
    simp only [Process.run]
    rw [ih, step_shutdowns]
    by_cases h : p.state = Lifecycle.RUNNING
    · cases he : e.isSignal with
      | true =>
        have : (Process.step sleep pick p now e).state ≠ Lifecycle.RUNNING := by
          rw [Ne, step_running_iff]; simp [he]
        simp [h, he, this]
      | false =>
        have : (Process.step sleep pick p now e).state = Lifecycle.RUNNING := by
          rw [step_running_iff]; exact ⟨h, he⟩
        simp only [List.any_cons, h, he, this, true_and, Bool.false_or, and_false, if_false,
          Bool.false_eq_true, Nat.add_zero]
    · have : (Process.step sleep pick p now e).state ≠ Lifecycle.RUNNING :=
        step_not_running sleep pick p now e h
      simp [h, this]

/-- C9. From `RUNNING`, over every sequence of timed events,
`doGracefulShutDown` is started once if the sequence holds a signal and not at
all otherwise.  Every step of the process is a transition of the state machine
`RUNNING -> SHUTTING_DOWN -> TERMINATED`.  Outside `RUNNING` a signal changes
nothing beyond the passing of time, and no event leads back to `RUNNING`. -/
theorem C9_lifecycle (sleep : Option Duration) (pick : SelectCase)
    (trace : List (Duration × Event)) (p : Process) (now : Duration) (e : Event) :
    (Process.run sleep pick Process.init trace).shutdowns =
      (if trace.any (fun te => te.2.isSignal) = true then 1 else 0) ∧
    Lifecycle.allowed p.state (Process.step sleep pick p now e).state ∧
    (p.state ≠ Lifecycle.RUNNING →
      Process.step sleep pick p now Event.signal = p.advance now ∧
      (Process.step sleep pick p now e).state ≠ Lifecycle.RUNNING) := by
  refine ⟨?_, step_allowed sleep pick p now e, fun h => ⟨?_, ?_⟩⟩
  · rw [run_shutdowns]
    simp only [Process.init, true_and, Nat.zero_add]
  · exact step_signal_not_running sleep pick p now h
  · exact step_not_running sleep pick p now e h

/-- C3 as stated fails: a signal at time 0 puts the process in `SHUTTING_DOWN`
until 3s, and the request `GET /` arriving at 1s is handed to its handler. -/
theorem C3_counterexample :
    (Process.step (some closeDelay) SelectCase.done Process.init 0 Event.signal).state =
      Lifecycle.SHUTTING_DOWN { code := 0, time := 3 * Second } ∧
    (Process.run (some closeDelay) SelectCase.done Process.init
      [(0, Event.signal),
       (Second, Event.request { Method := "GET", Path := "/" } (Except.ok ⟨200, Body.document JSON.null⟩))]).handled =
      [(Second, { Method := "GET", Path := "/" })] := by
  decide

/-- C3, amended.  The signal does not stop the listener.  A request that
arrives in `SHUTTING_DOWN` and matches a route is handed to its handler; a
request that arrives once the process is `TERMINATED` is not. -/
theorem C3_requests_served_until_exit (sleep : Option Duration) (pick : SelectCase)
    (p : Process) (now : Duration) (r : Request) (up : Except urlError Response) :
    (∀ ex, (p.advance now).state = Lifecycle.SHUTTING_DOWN ex → dispatched up r = true →
      (Process.step sleep pick p now (Event.request r up)).handled = p.handled ++ [(now, r)]) ∧
    (∀ c, (p.advance now).state = Lifecycle.TERMINATED c →
      (Process.step sleep pick p now (Event.request r up)).handled = p.handled) := by
  constructor
  · intro ex hs hd
    simp [Process.step, hs, hd, advance_handled]
  · intro c hs
    simp [Process.step, hs, advance_handled]


/-! ## The middleware and the router: theorems -/

theorem header_get_set (h : Header) (key key2 value : String)
    (hk : canonicalMIMEHeaderKey key2 = canonicalMIMEHeaderKey key) :
    Header.Get (Header.Set h key value) key2 = value := by
  unfold Header.Get Header.Set
  rw [hk, List.find?_append]
  have hnone : List.find? (fun kv => decide (kv.1 = canonicalMIMEHeaderKey key))
      (List.filter (fun kv => decide (kv.1 ≠ canonicalMIMEHeaderKey key)) h) = none := by
    rw [List.find?_eq_none]
    intro x hx
    have := (List.mem_filter.mp hx).2
    simpa using this
  rw [hnone]
  simp

theorem Encode_contentType (w : ResponseWriter) (v : JSON) (h : w.sent = none) :
    (Encode w v).contentType = Header.Get w.header "Content-Type" := by
  simp [ResponseWriter.contentType, ResponseWriter.finish, Encode, ResponseWriter.Write,
    ResponseWriter.WriteHeader, h]

theorem Encode_status (w : ResponseWriter) (v : JSON) (h : w.sent = none) :
    (Encode w v).status = 200 := by
  simp [ResponseWriter.status, ResponseWriter.finish, Encode, ResponseWriter.Write,
    ResponseWriter.WriteHeader, h]

theorem listUsers_encode (up : Except urlError Response) (w : ResponseWriter) (r : Request) :
    ∃ v, listUsers up w r = Encode w v := by
  unfold listUsers
  cases up with
  | error e => exact ⟨_, handleError_eq w _⟩
  | ok resp =>
    simp only
    cases Decode resp.Body with
    | error e => exact ⟨_, handleError_eq w _⟩
    | ok us => exact ⟨_, rfl⟩

/-- A found route is one of the registered routes, and its handler is the
middleware around the matched handler. -/
theorem routerMatch_found (mw : Handler → Handler) (r : Request) (rs : List Route) (b : Bool)
    (rt : Route) (h : Handler) (hm : Router.Match mw r b rs = RouteMatch.found rt h) :
    rt ∈ rs ∧ h = mw (rt.matchHandler r) := by
  induction rs generalizing b with
  | nil =>
    simp only [Router.Match] at hm
    split_ifs at hm
  | cons x xs ih =>
    simp only [Router.Match] at hm
    split_ifs at hm with h1 h2
    · injection hm with e1 e2
      subst e1
      exact ⟨List.mem_cons_self _ _, e2.symm⟩
    · obtain ⟨hmem, hh⟩ := ih true hm
      exact ⟨List.mem_cons_of_mem _ hmem, hh⟩
    · obtain ⟨hmem, hh⟩ := ih b hm
      exact ⟨List.mem_cons_of_mem _ hmem, hh⟩

theorem middleware_fresh (next : Handler) (r : Request) :
    respContentTypeMiddleware next ResponseWriter.fresh r = next jsonWriter r := by
  have hw : ({ ResponseWriter.fresh with
      header := ResponseWriter.fresh.header.Set "Content-type" "application/json" } :
      ResponseWriter) = jsonWriter := by decide
  unfold respContentTypeMiddleware
  rw [hw]

theorem redirect_contentType (url : String) (r : Request) :
    (RedirectHandler url jsonWriter r).contentType = "application/json" := by
  have hct : (jsonWriter.header.any fun kv => decide (kv.1 = "Content-Type")) = true := by decide
  have hget : Header.Get (Header.Set jsonWriter.header "Location" url) "Content-Type" =
      "application/json" := by
    have e1 : canonicalMIMEHeaderKey "Location" = "Location" := by decide
    have e2 : canonicalMIMEHeaderKey "Content-Type" = "Content-Type" := by decide
    simp [Header.Get, Header.Set, e1, e2, jsonWriter, List.filter]
  simp only [RedirectHandler, hct, not_true_eq_false, false_and, if_false]
  simp [ResponseWriter.contentType, ResponseWriter.finish, ResponseWriter.WriteHeader,
    jsonWriter] at hget ⊢
  exact hget

theorem finish_contentType (w : ResponseWriter) : w.finish.contentType = w.contentType := by
  unfold ResponseWriter.contentType ResponseWriter.finish ResponseWriter.WriteHeader
  cases h : w.sent <;> simp [h]

/-- A request the router hands to a route is answered with the JSON content
type, whichever handler runs. -/
theorem dispatched_contentType (up : Except urlError Response) (r : Request)
    (h : dispatched up r = true) : (router up r).contentType = "application/json" := by
  unfold dispatched at h
  rw [Bool.and_eq_true] at h
  obtain ⟨hclean, hmatch⟩ := h
  have hclean2 : cleanPath r.Path = r.Path := by simpa using hclean
  unfold router Router.ServeHTTP
  rw [finish_contentType]
  simp only [hclean2, ne_eq, not_true_eq_false, if_false]
  cases hm : Router.Match respContentTypeMiddleware r false (routes up) with
  | methodMismatch => rw [hm] at hmatch; simp at hmatch
  | notFound => rw [hm] at hmatch; simp at hmatch
  | found rt hd =>
    obtain ⟨hmem, hh⟩ := routerMatch_found _ _ _ _ _ _ hm
    simp only
    rw [hh, middleware_fresh]
    unfold Route.matchHandler
    by_cases hc : hasSlashSuffix r.Path ≠ hasSlashSuffix rt.template
    · rw [if_pos hc]
      exact redirect_contentType _ r
    · rw [if_neg hc]
      simp only [routes, List.mem_cons, List.mem_singleton, List.not_mem_nil, or_false] at hmem
      rcases hmem with rfl | rfl
      · show (healthCheck jsonWriter r).contentType = "application/json"
        rw [healthCheck_eq, Encode_contentType _ _ rfl]
        decide
      · show (listUsers up jsonWriter r).contentType = "application/json"
        obtain ⟨v, hv⟩ := listUsers_encode up jsonWriter r
        rw [hv, Encode_contentType _ _ rfl]
        decide

/-- C7 as stated fails: `GET /nope` matches no route, the router answers by
itself and the response carries a plain-text content type. -/
theorem C7_counterexample :
    (router (Except.ok ⟨200, Body.document (JSON.arr [])⟩)
      { Method := "GET", Path := "/nope" }).contentType = "text/plain; charset=utf-8" ∧
    (router (Except.ok ⟨200, Body.document (JSON.arr [])⟩)
      { Method := "GET", Path := "/nope" }).contentType ≠ "application/json" := by
  decide

/-- C7, amended.  Every response to a request that the router hands to a route
carries the content type `application/json`.  The middleware sets the header
on the writer before it runs the wrapped handler, and `healthCheck`,
`listUsers` and `handleError` leave the header map as they found it. -/
theorem C7_contentType_on_routes (up : Except urlError Response) (r : Request) (next : Handler)
    (w : ResponseWriter) (err : String) :
    (dispatched up r = true → (router up r).contentType = "application/json") ∧
    respContentTypeMiddleware next w r =
      next { w with header := w.header.Set "Content-type" "application/json" } r ∧
    Header.Get (w.header.Set "Content-type" "application/json") "Content-Type" =
      "application/json" ∧
    (healthCheck w r).header = w.header ∧
    (listUsers up w r).header = w.header ∧
    (handleError w err).header = w.header := by
  refine ⟨dispatched_contentType up r, rfl, header_get_set _ _ _ _ (by decide), ?_, ?_, ?_⟩
  · rw [healthCheck_eq, Encode_header]
  · obtain ⟨v, hv⟩ := listUsers_encode up w r
    rw [hv, Encode_header]
  · rw [handleError_eq, Encode_header]

/-- C7, amended, at `GET /users` with an upstream body that is empty. -/
theorem C7_contentType_on_routes_witness :
    dispatched (Except.ok ⟨500, Body.broken ReadFailure.eof⟩)
      { Method := "GET", Path := "/users" } = true ∧
    (router (Except.ok ⟨500, Body.broken ReadFailure.eof⟩)
      { Method := "GET", Path := "/users" }).contentType = "application/json" :=
  ⟨by decide, (C7_contentType_on_routes (Except.ok ⟨500, Body.broken ReadFailure.eof⟩)
    { Method := "GET", Path := "/users" } healthCheck ResponseWriter.fresh "").1 (by decide)⟩


/-! ## `listUsers`: theorems -/

theorem append_ne_empty_left (a b : String) (h : a ≠ "") : a ++ b ≠ "" := by
  intro hab
  apply h
  have hd : (a ++ b).data = [] := by rw [hab]
  rw [String.data_append] at hd
  exact String.ext (List.append_eq_nil.mp hd).1

theorem append_ne_empty_right (a b : String) (h : b ≠ "") : a ++ b ≠ "" := by
  intro hab
  apply h
  have hd : (a ++ b).data = [] := by rw [hab]
  rw [String.data_append] at hd
  exact String.ext (List.append_eq_nil.mp hd).2

theorem urlError_message_ne_empty (e : urlError) : e.Error ≠ "" := by
  unfold urlError.Error
  apply append_ne_empty_left
  apply append_ne_empty_right
  decide

theorem typeError_message_ne_empty (e : UnmarshalTypeError) : e.Error ≠ "" := by
  unfold UnmarshalTypeError.Error
  split_ifs
  · repeat apply append_ne_empty_left
    decide
  · repeat apply append_ne_empty_left
    decide

theorem decodeError_message_ne_empty (e : DecodeError) : e.Error ≠ "" := by
  cases e with
  | type e => exact typeError_message_ne_empty e
  | read e =>
    cases e with
    | eof => decide
    | unexpectedEOF => decide
    | syntaxError found => exact append_ne_empty_left _ _ (by decide)
    | maxDepth => decide
    | transport text => exact text.property

theorem upstreamError_ne_empty (up : Except urlError Response) (m : String)
    (h : upstreamError up = some m) : m ≠ "" := by
  unfold upstreamError at h
  cases up with
  | error e =>
    simp only [Option.some.injEq] at h
    rw [← h]
    exact urlError_message_ne_empty e
  | ok resp =>
    simp only at h
    cases hd : Decode resp.Body with
    | error e =>
      rw [hd] at h
      simp only [Option.some.injEq] at h
      rw [← h]
      exact decodeError_message_ne_empty e
    | ok us => rw [hd] at h; simp at h

theorem listUsers_of_error (up : Except urlError Response) (w : ResponseWriter) (r : Request)
    (m : String) (h : upstreamError up = some m) :
    listUsers up w r = Encode w (JSON.obj [("err", JSON.str m)]) := by
  unfold upstreamError at h
  unfold listUsers
  cases up with
  | error e =>
    simp only [Option.some.injEq] at h
    rw [← h]
    exact handleError_eq w _
  | ok resp =>
    simp only at h ⊢
    cases hd : Decode resp.Body with
    | error e =>
      rw [hd] at h
      simp only [Option.some.injEq] at h
      rw [← h]
      exact handleError_eq w _
    | ok us => rw [hd] at h; simp at h

theorem listUsers_of_decoded (status : Nat) (body : Body) (w : ResponseWriter) (r : Request)
    (fetched : Option (List user)) (h : Decode body = Except.ok fetched) :
    listUsers (Except.ok ⟨status, body⟩) w r = Encode w (marshalUsers fetched) := by
  simp only [listUsers, h]

theorem render_arr_ne_obj (xs : List JSON) (kvs : List (String × JSON)) (a b : String) :
    a ++ ((JSON.arr xs).render ++ b) ≠ a ++ ((JSON.obj kvs).render ++ b) := by
  intro h
  have hd := congrArg String.data h
  simp only [JSON.render, String.data_append] at hd
  have hd2 := List.append_cancel_left hd
  simp at hd2

theorem router_users (up : Except urlError Response) :
    router up { Method := "GET", Path := "/users" } =
      (listUsers up jsonWriter { Method := "GET", Path := "/users" }).finish := by
  have hc : cleanPath "/users" = "/users" := by decide
  have h1 : Route.pathMatches { template := "/", method := "GET", handler := healthCheck }
      "/users" = false := by decide
  have h2 : Route.pathMatches { template := "/users", method := "GET", handler := listUsers up }
      "/users" = true := by rfl
  have h3 : hasSlashSuffix "/users" = false := by decide
  unfold router Router.ServeHTTP
  simp only [hc, ne_eq, not_true_eq_false, if_false, routes, Router.Match, h1, h2, if_true,
    Bool.false_eq_true]
  rw [middleware_fresh]
  simp [Route.matchHandler, h3]

theorem finish_Encode (w : ResponseWriter) (v : JSON) : (Encode w v).finish = Encode w v := by
  unfold ResponseWriter.finish Encode ResponseWriter.Write ResponseWriter.WriteHeader
  cases h : w.sent <;> simp [h]

/-- C6. When the upstream call fails with message `m` (the error of
`client.Do`, or the error of `dec.Decode`), `m` is not empty and `listUsers`
makes one `Encode` call, with the object `err: m`: what it appends to the body
is that object and a newline, which is not the text of any array.  Through the
router, the response to `GET /users` has that body and status 200. -/
theorem C6_listUsers_failure (up : Except urlError Response) (w : ResponseWriter) (r : Request)
    (m : String) (h : upstreamError up = some m) :
    m ≠ "" ∧
    listUsers up w r = Encode w (JSON.obj [("err", JSON.str m)]) ∧
    (listUsers up w r).body = w.body ++ ((JSON.obj [("err", JSON.str m)]).render ++ "\n") ∧
    (∀ xs, (listUsers up w r).body ≠ w.body ++ ((JSON.arr xs).render ++ "\n")) ∧
    (router up { Method := "GET", Path := "/users" }).body =
      (JSON.obj [("err", JSON.str m)]).render ++ "\n" ∧
    (router up { Method := "GET", Path := "/users" }).status = 200 := by
  refine ⟨upstreamError_ne_empty up m h, listUsers_of_error up w r m h, ?_, ?_, ?_, ?_⟩
  · rw [listUsers_of_error up w r m h, Encode_body]
  · intro xs
    rw [listUsers_of_error up w r m h, Encode_body]
    exact (render_arr_ne_obj _ _ _ _).symm
  · rw [router_users, listUsers_of_error up _ _ m h, finish_Encode, Encode_body]
    simp [jsonWriter]
  · rw [router_users, listUsers_of_error up _ _ m h, finish_Encode, Encode_status _ _ rfl]

/-- C6 at an upstream body that ends inside a value. -/
theorem C6_listUsers_failure_witness :
    upstreamError (Except.ok ⟨200, Body.broken ReadFailure.unexpectedEOF⟩) =
      some "unexpected EOF" ∧
    (router (Except.ok ⟨200, Body.broken ReadFailure.unexpectedEOF⟩)
      { Method := "GET", Path := "/users" }).body =
      (JSON.obj [("err", JSON.str "unexpected EOF")]).render ++ "\n" :=
  ⟨by decide, (C6_listUsers_failure (Except.ok ⟨200, Body.broken ReadFailure.unexpectedEOF⟩)
    ResponseWriter.fresh { Method := "GET", Path := "/users" } "unexpected EOF"
    (by decide)).2.2.2.2.1⟩


theorem storeField_fieldValue (acc u : user) (f : Field) (hid : inInt64 u.ID) :
    storeField acc f (fieldValue u f) = Except.ok (pickFields (fun g => g = f) acc u) := by
  cases f <;> simp [storeField, fieldValue, pickFields, hid]

/-- Decoding the members of a record of `u` into `acc` gives `u` in every field
that some member names, and `acc` in the others. -/
theorem decodeMembers_record (u : user) (hid : inInt64 u.ID) (kvs : List (String × JSON))
    (acc : user)
    (h : ∀ kv ∈ kvs, ∀ f, findField kv.1 = some f → kv.2 = fieldValue u f) :
    decodeMembers acc kvs =
      Except.ok (pickFields (fun f => kvs.any (fun kv => findField kv.1 = some f)) acc u) := by
  induction kvs generalizing acc with
  | nil => simp [decodeMembers, pickFields]
  | cons kv rest ih =>
    obtain ⟨k, v⟩ := kv
    have hrest : ∀ kv ∈ rest, ∀ f, findField kv.1 = some f → kv.2 = fieldValue u f :=
      fun kv hkv => h kv (List.mem_cons_of_mem _ hkv)
    unfold decodeMembers
    cases hf : findField k with
    | none =>
      have e : ∀ g, ((k, v) :: rest).any (fun kv => decide (findField kv.1 = some g)) =
          rest.any (fun kv => decide (findField kv.1 = some g)) := by
        intro g
        simp only [List.any_cons, hf]
        simp
      simp only
      rw [ih acc hrest]
      simp only [e]
    | some f =>
      have hv : v = fieldValue u f := h (k, v) (List.mem_cons_self _ _) f hf
      subst hv
      have e : ∀ g, ((k, fieldValue u f) :: rest).any
          (fun kv => decide (findField kv.1 = some g)) =
          (decide (f = g) || rest.any (fun kv => decide (findField kv.1 = some g))) := by
        intro g
        simp only [List.any_cons, hf, Option.some.injEq]
      simp only
      rw [storeField_fieldValue acc u f hid]
      simp only
      rw [ih _ hrest]
      simp only [e]
      cases f <;>
        simp only [pickFields, reduceCtorEq, decide_False, decide_True, Bool.false_or,
          Bool.true_or, if_true, if_false, ite_self, Bool.false_eq_true]

theorem decodeElem_record (kvs : List (String × JSON)) (u : user) (h : IsUserRecord kvs u)
    (hid : inInt64 u.ID) :
    decodeElem (JSON.obj kvs) = Except.ok u := by
  obtain ⟨h1, h2, h3, h4, hall⟩ := h
  have hval : ∀ kv ∈ kvs, ∀ f, findField kv.1 = some f → kv.2 = fieldValue u f := by
    intro kv hkv f hf
    cases f
    · exact h1 kv hkv hf
    · exact h2 kv hkv hf
    · exact h3 kv hkv hf
    · exact h4 kv hkv hf
  have hany : ∀ f, kvs.any (fun kv => decide (findField kv.1 = some f)) = true := by
    intro f
    obtain ⟨kv, hkv, hf⟩ := hall f
    rw [List.any_eq_true]
    exact ⟨kv, hkv, by simpa using hf⟩
  show decodeMembers user.zero kvs = Except.ok u
  rw [decodeMembers_record u hid kvs user.zero hval]
  simp [pickFields, hany]

theorem decodeElems_records (docs : List (List (String × JSON))) (us : List user)
    (h : List.Forall₂ IsUserRecord docs us) :
    (∀ u ∈ us, inInt64 u.ID) → decodeElems (docs.map JSON.obj) = Except.ok us := by
  induction h with
  | nil => intro _; rfl
  | cons hd _ ih =>
    intro hid
    simp only [List.map_cons, decodeElems]
    rw [decodeElem_record _ _ hd (hid _ (List.mem_cons_self _ _))]
    simp only
    rw [ih (fun u hu => hid u (List.mem_cons_of_mem _ hu))]

theorem Decode_records (docs : List (List (String × JSON))) (us : List user)
    (h : List.Forall₂ IsUserRecord docs us) (hid : ∀ u ∈ us, inInt64 u.ID) :
    Decode (Body.document (JSON.arr (docs.map JSON.obj))) = Except.ok (some us) := by
  simp only [Decode, unmarshalUsers, decodeElems_records docs us h hid]

/-- The four members `id`, `name`, `username`, `email` with the values of `u`,
followed by members whose keys the decoder takes for no field, are a record of
`u`. -/
theorem isUserRecord_members (u : user) (extras : List (String × JSON))
    (hex : ∀ kv ∈ extras, findField kv.1 = none) :
    IsUserRecord ([("id", JSON.int u.ID), ("name", JSON.str u.Name),
      ("username", JSON.str u.Username), ("email", JSON.str u.Email)] ++ extras) u := by
  have h1 : findField "id" = some Field.ID := by decide
  have h2 : findField "name" = some Field.Name := by decide
  have h3 : findField "username" = some Field.Username := by decide
  have h4 : findField "email" = some Field.Email := by decide
  have key : ∀ kv ∈ [("id", JSON.int u.ID), ("name", JSON.str u.Name),
      ("username", JSON.str u.Username), ("email", JSON.str u.Email)] ++ extras,
      ∀ f, findField kv.1 = some f → kv.2 = fieldValue u f := by
    intro kv hkv f hf
    rcases List.mem_append.mp hkv with hkv | hkv
    · simp only [List.mem_cons, List.mem_singleton, List.not_mem_nil, or_false] at hkv
      rcases hkv with rfl | rfl | rfl | rfl
      · rw [h1] at hf; cases hf; rfl
      · rw [h2] at hf; cases hf; rfl
      · rw [h3] at hf; cases hf; rfl
      · rw [h4] at hf; cases hf; rfl
    · rw [hex kv hkv] at hf
      cases hf
  refine ⟨fun kv hkv hf => key kv hkv _ hf, fun kv hkv hf => key kv hkv _ hf,
    fun kv hkv hf => key kv hkv _ hf, fun kv hkv hf => key kv hkv _ hf, ?_⟩
  intro f
  cases f
  · exact ⟨("id", JSON.int u.ID), by simp, h1⟩
  · exact ⟨("name", JSON.str u.Name), by simp, h2⟩
  · exact ⟨("username", JSON.str u.Username), by simp, h3⟩
  · exact ⟨("email", JSON.str u.Email), by simp, h4⟩

/-- C5 as stated fails: the upstream array holds one record with the members
`id`, `name`, `username`, `email`, the id being the integer 2^63.  The decoder
cannot store that id into the `int64` field, so the upstream call counts as
failed and `listUsers` writes an error object, not the array with the record. -/
theorem C5_counterexample :
    IsUserRecord
      ([("id", JSON.int 9223372036854775808), ("name", JSON.str "a"),
        ("username", JSON.str "b"), ("email", JSON.str "c")] ++ [])
      { ID := 9223372036854775808, Name := "a", Username := "b", Email := "c" } ∧
    (upstreamError (Except.ok ⟨200, Body.document (JSON.arr [JSON.obj
      ([("id", JSON.int 9223372036854775808), ("name", JSON.str "a"),
        ("username", JSON.str "b"), ("email", JSON.str "c")] ++ [])])⟩)).isSome = true ∧
    (∃ m, (listUsers (Except.ok ⟨200, Body.document (JSON.arr [JSON.obj
      ([("id", JSON.int 9223372036854775808), ("name", JSON.str "a"),
        ("username", JSON.str "b"), ("email", JSON.str "c")] ++ [])])⟩) ResponseWriter.fresh
      { Method := "GET", Path := "/users" }).body =
      (JSON.obj [("err", JSON.str m)]).render ++ "\n") ∧
    (listUsers (Except.ok ⟨200, Body.document (JSON.arr [JSON.obj
      ([("id", JSON.int 9223372036854775808), ("name", JSON.str "a"),
        ("username", JSON.str "b"), ("email", JSON.str "c")] ++ [])])⟩) ResponseWriter.fresh
      { Method := "GET", Path := "/users" }).body ≠
      (JSON.arr [JSON.obj [("id", JSON.int 9223372036854775808), ("name", JSON.str "a"),
        ("username", JSON.str "b"), ("email", JSON.str "c")]]).render ++ "\n" := by
  refine ⟨isUserRecord_members
    { ID := 9223372036854775808, Name := "a", Username := "b", Email := "c" } []
    (fun kv hkv => absurd hkv (List.not_mem_nil kv)), by decide, ⟨_, rfl⟩, by decide⟩

/-- C5, amended.  When the upstream body is an array of `N` objects that are
records of the users `us`, in that order, and every id fits an `int64`,
`listUsers` makes one `Encode` call with an array of `N` objects in the same
order, the object of each user being exactly the members `id`, `name`,
`username`, `email` with the upstream values.  There is no upstream error and
what is appended is not an error object.  The status code of the upstream
response plays no part. -/
theorem C5_listUsers_passthrough (docs : List (List (String × JSON))) (us : List user)
    (status : Nat) (w : ResponseWriter) (r : Request)
    (h : List.Forall₂ IsUserRecord docs us) (hid : ∀ u ∈ us, inInt64 u.ID) :
    listUsers (Except.ok ⟨status, Body.document (JSON.arr (docs.map JSON.obj))⟩) w r =
      Encode w (JSON.arr (us.map fun u =>
        JSON.obj [("id", JSON.int u.ID), ("name", JSON.str u.Name),
          ("username", JSON.str u.Username), ("email", JSON.str u.Email)])) ∧
    (listUsers (Except.ok ⟨status, Body.document (JSON.arr (docs.map JSON.obj))⟩) w r).body =
      w.body ++ ((JSON.arr (us.map fun u =>
        JSON.obj [("id", JSON.int u.ID), ("name", JSON.str u.Name),
          ("username", JSON.str u.Username), ("email", JSON.str u.Email)])).render ++ "\n") ∧
    (us.map fun u =>
        JSON.obj [("id", JSON.int u.ID), ("name", JSON.str u.Name),
          ("username", JSON.str u.Username), ("email", JSON.str u.Email)]).length =
      docs.length ∧
    upstreamError (Except.ok ⟨status, Body.document (JSON.arr (docs.map JSON.obj))⟩) = none ∧
    ∀ m, (listUsers (Except.ok ⟨status, Body.document (JSON.arr (docs.map JSON.obj))⟩) w r).body ≠
      w.body ++ ((JSON.obj [("err", JSON.str m)]).render ++ "\n") := by
  have hd := Decode_records docs us h hid
  have hl : listUsers (Except.ok ⟨status, Body.document (JSON.arr (docs.map JSON.obj))⟩) w r =
      Encode w (JSON.arr (us.map fun u =>
        JSON.obj [("id", JSON.int u.ID), ("name", JSON.str u.Name),
          ("username", JSON.str u.Username), ("email", JSON.str u.Email)])) :=
    listUsers_of_decoded status _ w r _ hd
  refine ⟨hl, ?_, ?_, ?_, ?_⟩
  · rw [hl, Encode_body]
  · rw [List.length_map, h.length_eq]
  · simp only [upstreamError, hd]
  · intro m
    rw [hl, Encode_body]
    exact render_arr_ne_obj _ _ _ _

/-- C5, amended, at an upstream array of one record that also has a member
`phone`: the bytes written are the array with the four members of the record,
and `phone` is gone. -/
theorem C5_listUsers_passthrough_witness :
    List.Forall₂ IsUserRecord
      [[("id", JSON.int 1), ("name", JSON.str "Leanne Graham"), ("username", JSON.str "Bret"),
        ("email", JSON.str "Sincere@april.biz")] ++ [("phone", JSON.str "1-770-736-8031")]]
      [{ ID := 1, Name := "Leanne Graham", Username := "Bret", Email := "Sincere@april.biz" }] ∧
    (∀ u ∈ [({ ID := 1, Name := "Leanne Graham", Username := "Bret",
               Email := "Sincere@april.biz" } : user)], inInt64 u.ID) ∧
    (listUsers (Except.ok ⟨200, Body.document (JSON.arr (List.map JSON.obj
      [[("id", JSON.int 1), ("name", JSON.str "Leanne Graham"), ("username", JSON.str "Bret"),
        ("email", JSON.str "Sincere@april.biz")] ++ [("phone", JSON.str "1-770-736-8031")]]))⟩)
      ResponseWriter.fresh { Method := "GET", Path := "/users" }).body =
      "[\x7b\"id\":1,\"name\":\"Leanne Graham\",\"username\":\"Bret\",\"email\":\"Sincere@april.biz\"\x7d]\n" :=
  ⟨List.Forall₂.cons
      (isUserRecord_members
        { ID := 1, Name := "Leanne Graham", Username := "Bret", Email := "Sincere@april.biz" }
        [("phone", JSON.str "1-770-736-8031")] (by decide))
      List.Forall₂.nil,
    by decide,
    (C5_listUsers_passthrough _ _ 200 ResponseWriter.fresh { Method := "GET", Path := "/users" }
      (List.Forall₂.cons
        (isUserRecord_members
          { ID := 1, Name := "Leanne Graham", Username := "Bret", Email := "Sincere@april.biz" }
          [("phone", JSON.str "1-770-736-8031")] (by decide))
        List.Forall₂.nil)
      (by decide)).2.1.trans (by decide)⟩

theorem render_arr_ne_null (xs : List JSON) : "null\n" ≠ (JSON.arr xs).render ++ "\n" := by
  intro h
  have hd := congrArg String.data h
  simp only [JSON.render, String.data_append] at hd
  simp at hd

/-- C8 as stated fails: the upstream body `null` decodes without error, and
what `listUsers` writes is `null` and a newline, which is not the text of any
array. -/
theorem C8_counterexample :
    upstreamError (Except.ok ⟨200, Body.document JSON.null⟩) = none ∧
    (listUsers (Except.ok ⟨200, Body.document JSON.null⟩) ResponseWriter.fresh
      { Method := "GET", Path := "/users" }).body = "null\n" ∧
    ¬ ∃ xs, (listUsers (Except.ok ⟨200, Body.document JSON.null⟩) ResponseWriter.fresh
      { Method := "GET", Path := "/users" }).body = (JSON.arr xs).render ++ "\n" := by
  have hb : (listUsers (Except.ok ⟨200, Body.document JSON.null⟩) ResponseWriter.fresh
      { Method := "GET", Path := "/users" }).body = "null\n" := by decide
  refine ⟨by decide, hb, ?_⟩
  rintro ⟨xs, hxs⟩
  rw [hb] at hxs
  exact render_arr_ne_null xs hxs

/-- C8, amended.  For every outcome of the upstream call, `listUsers` makes one
`Encode` call, and what it encodes is one of three: the array of the decoded
users, when the upstream body is an array that decodes; the value `null`, when
the upstream body is `null`; the error object with the failure message, in
every other case. -/
theorem C8_listUsers_payload (up : Except urlError Response) (w : ResponseWriter) (r : Request) :
    (∃ status xs us, up = Except.ok ⟨status, Body.document (JSON.arr xs)⟩ ∧
      decodeElems xs = Except.ok us ∧
      listUsers up w r = Encode w (JSON.arr (us.map marshalUser))) ∨
    (∃ status, up = Except.ok ⟨status, Body.document JSON.null⟩ ∧
      listUsers up w r = Encode w JSON.null) ∨
    (∃ m, upstreamError up = some m ∧
      listUsers up w r = Encode w (JSON.obj [("err", JSON.str m)])) := by
  have third : ∀ m, upstreamError up = some m →
      ∃ m, upstreamError up = some m ∧
        listUsers up w r = Encode w (JSON.obj [("err", JSON.str m)]) :=
    fun m hm => ⟨m, hm, listUsers_of_error up w r m hm⟩
  cases up with
  | error e => exact Or.inr (Or.inr (third _ rfl))
  | ok resp =>
    obtain ⟨status, body⟩ := resp
    cases body with
    | broken e => exact Or.inr (Or.inr (third _ rfl))
    | document v =>
      cases v with
      | null => exact Or.inr (Or.inl ⟨status, rfl, rfl⟩)
      | arr xs =>
        cases hx : decodeElems xs with
        | ok us =>
          refine Or.inl ⟨status, xs, us, rfl, hx, ?_⟩
          simp only [listUsers, Decode, unmarshalUsers, hx, marshalUsers]
        | error e =>
          refine Or.inr (Or.inr (third e.Error ?_))
          simp only [upstreamError, Decode, unmarshalUsers, hx, DecodeError.Error]
      | bool b => exact Or.inr (Or.inr (third _ rfl))
      | int i => exact Or.inr (Or.inr (third _ rfl))
      | float lit => exact Or.inr (Or.inr (third _ rfl))
      | str s => exact Or.inr (Or.inr (third _ rfl))
      | obj kvs => exact Or.inr (Or.inr (third _ rfl))

/-- C10. `listUsers` does not look at the upstream status code: two upstream
responses with the same body and any two status codes give the same writer and
the same upstream error.  So a body that decodes to a list of users is served
as that list, with no upstream error, under every status code. -/
theorem C10_status_ignored (body : Body) (s1 s2 : Nat) (w : ResponseWriter) (r : Request)
    (us : List user) :
    listUsers (Except.ok ⟨s1, body⟩) w r = listUsers (Except.ok ⟨s2, body⟩) w r ∧
    upstreamError (Except.ok ⟨s1, body⟩) = upstreamError (Except.ok ⟨s2, body⟩) ∧
    (Decode body = Except.ok (some us) →
      listUsers (Except.ok ⟨s1, body⟩) w r = Encode w (JSON.arr (us.map marshalUser)) ∧
      upstreamError (Except.ok ⟨s1, body⟩) = none) := by
  refine ⟨rfl, rfl, fun hd => ?_⟩
  have hl := listUsers_of_decoded s1 _ w r _ hd
  simp only [marshalUsers] at hl
  exact ⟨hl, by simp only [upstreamError, hd]⟩

/-- C10 at status 500 with a body of one record. -/
theorem C10_status_ignored_witness :
    Decode (Body.document (JSON.arr [JSON.obj [("id", JSON.int 7), ("name", JSON.str "Ann"),
      ("username", JSON.str "ann"), ("email", JSON.str "ann@example.org")]])) =
      Except.ok
        (some [{ ID := 7, Name := "Ann", Username := "ann", Email := "ann@example.org" }]) ∧
    (listUsers (Except.ok ⟨500, Body.document (JSON.arr [JSON.obj [("id", JSON.int 7),
      ("name", JSON.str "Ann"), ("username", JSON.str "ann"),
      ("email", JSON.str "ann@example.org")]])⟩) ResponseWriter.fresh
      { Method := "GET", Path := "/users" } =
      Encode ResponseWriter.fresh (JSON.arr (List.map marshalUser
        [{ ID := 7, Name := "Ann", Username := "ann", Email := "ann@example.org" }])) ∧
    upstreamError (Except.ok ⟨500, Body.document (JSON.arr [JSON.obj [("id", JSON.int 7),
      ("name", JSON.str "Ann"), ("username", JSON.str "ann"),
      ("email", JSON.str "ann@example.org")]])⟩) = none) :=
  ⟨rfl, (C10_status_ignored _ 500 200 ResponseWriter.fresh
    { Method := "GET", Path := "/users" } _).2.2 rfl⟩

/-- C9 on two signals one second apart: one shutdown, the second signal is
dropped. -/
theorem C9_lifecycle_witness :
    ({ state := Lifecycle.SHUTTING_DOWN { code := 0, time := 3 * Second },
       shutdowns := 1, handled := [] } : Process).state ≠ Lifecycle.RUNNING ∧
    (Process.run (some closeDelay) SelectCase.done Process.init
      [(0, Event.signal), (Second, Event.signal)]).shutdowns = 1 ∧
    Process.step (some closeDelay) SelectCase.done
      { state := Lifecycle.SHUTTING_DOWN { code := 0, time := 3 * Second },
        shutdowns := 1, handled := [] } Second Event.signal =
      ({ state := Lifecycle.SHUTTING_DOWN { code := 0, time := 3 * Second },
         shutdowns := 1, handled := [] } : Process).advance Second :=
  ⟨by decide,
    (C9_lifecycle (some closeDelay) SelectCase.done [(0, Event.signal), (Second, Event.signal)]
      Process.init 0 Event.signal).1.trans (by decide),
    ((C9_lifecycle (some closeDelay) SelectCase.done []
      { state := Lifecycle.SHUTTING_DOWN { code := 0, time := 3 * Second },
        shutdowns := 1, handled := [] } Second Event.signal).2.2 (by decide)).1⟩

/-- C3, amended, at `GET /` arriving one second into a three-second shutdown. -/
theorem C3_requests_served_until_exit_witness :
    (({ state := Lifecycle.SHUTTING_DOWN { code := 0, time := 3 * Second },
        shutdowns := 1, handled := [] } : Process).advance Second).state =
      Lifecycle.SHUTTING_DOWN { code := 0, time := 3 * Second } ∧
    dispatched (Except.ok ⟨200, Body.document JSON.null⟩) { Method := "GET", Path := "/" } =
      true ∧
    (Process.step (some closeDelay) SelectCase.done
      { state := Lifecycle.SHUTTING_DOWN { code := 0, time := 3 * Second },
        shutdowns := 1, handled := [] } Second
      (Event.request { Method := "GET", Path := "/" }
        (Except.ok ⟨200, Body.document JSON.null⟩))).handled =
      [] ++ [(Second, { Method := "GET", Path := "/" })] :=
  ⟨by decide, by decide,
    (C3_requests_served_until_exit (some closeDelay) SelectCase.done
      { state := Lifecycle.SHUTTING_DOWN { code := 0, time := 3 * Second },
        shutdowns := 1, handled := [] } Second { Method := "GET", Path := "/" }
      (Except.ok ⟨200, Body.document JSON.null⟩)).1 { code := 0, time := 3 * Second }
      (by decide) (by decide)⟩

end GracefulShutdown
